import Mathlib

/-!
Verification development for the order-merging tool (`src/main.py`).

The core under scrutiny is `OrderProcessor.parse_file_to_sections`: a
single-pass scan over a grid of text cells that detects header rows,
order-number section boundaries and data rows, together with the
export-time deduplication loop of `WorkerThread.run`.

The embedding works over `List (List String)` grids (pandas grids are
rectangular; every cell is already coerced to a string with missing
values as the empty string).  Numeric cells are modelled as rationals.
All string primitives are implemented over `List Char` so that every
definition is executable by kernel reduction.
-/

set_option maxRecDepth 4000

namespace OrderMerge

/-- A grid of text cells: rows of cells, as produced by
`read_excel_smart` (pandas `DataFrame` with `dtype=str` and
`fillna("")`).  Rows of one grid all have the same length. -/
abbrev Grid := List (List String)

/- ### Character and string primitives (kernel-friendly) -/

/-- Whitespace test used by Python `str.strip` (ASCII subset). -/
def isWS (c : Char) : Bool :=
  c == ' ' || c == '\t' || c == '\n' || c == '\r'

/-- Strip leading and trailing whitespace from a character list. -/
def trimCh (l : List Char) : List Char :=
  ((l.dropWhile isWS).reverse.dropWhile isWS).reverse

/-- Python `str.strip()`. -/
def trimStr (s : String) : String := ⟨trimCh s.data⟩

/-- ASCII lower-casing of one character; models Python `str.lower` on
the ASCII-plus-CJK alphabet actually used by the tool (CJK characters
are unaffected by lower-casing). -/
def lowerCh (c : Char) : Char :=
  if 'A' ≤ c && c ≤ 'Z' then Char.ofNat (c.toNat + 32) else c

/-- Python `str.lower()`. -/
def lowerStr (s : String) : String := ⟨s.data.map lowerCh⟩

/-- Python `str.replace(",", "")`: removes every comma. -/
def stripCommas (s : String) : String := ⟨s.data.filter (fun c => c != ',')⟩

/-- Does `p` occur at the head of `s`? -/
def headMatches : List Char → List Char → Bool
  | [], _ => true
  | _ :: _, [] => false
  | p :: ps, c :: cs => p == c && headMatches ps cs

/-- Python substring test `pat in s`, on character lists. -/
def occursIn (pat : List Char) : List Char → Bool
  | [] => pat.isEmpty
  | c :: rest => headMatches pat (c :: rest) || occursIn pat rest

/-- Substring test on strings: Python `pat in s`. -/
def containsStr (s pat : String) : Bool := occursIn pat.data s.data

/-- Python `" ".join(cells)`. -/
def joinRow : List String → String
  | [] => ""
  | [c] => c
  | c :: c2 :: rest => c ++ " " ++ joinRow (c2 :: rest)

/- ### The order-number regex `XIDP-[A-Z]?\d{10,12}` with `re.I` -/

def isDigitCh (c : Char) : Bool := '0' ≤ c && c ≤ '9'

def isAlphaCh (c : Char) : Bool :=
  ('A' ≤ c && c ≤ 'Z') || ('a' ≤ c && c ≤ 'z')

/-- Case-insensitive comparison of `c` against a lower-case letter. -/
def lowEq (c d : Char) : Bool := lowerCh c == d

/-- Greedy `\d{10,12}`: consume 10 to 12 digits (as many as
available, capped at 12), failing when fewer than 10 digits follow. -/
def matchDigits1012 (l : List Char) : Option (List Char) :=
  let ds := l.takeWhile isDigitCh
  if ds.length ≥ 10 then some (ds.take 12) else none

/-- Try to match `XIDP-[A-Z]?\d{10,12}` (case-insensitively, as under
`re.I`) at the head of `l`, returning the matched characters in their
original casing.  Mirrors the backtracking of the Python engine: the
optional letter is tried greedily, and dropping it cannot rescue a
failed digit run (the letter is not a digit). -/
def matchOrderAt (l : List Char) : Option (List Char) :=
  match l with
  | x :: i :: d :: p :: dash :: rest =>
    if lowEq x 'x' && lowEq i 'i' && lowEq d 'd' && lowEq p 'p' && dash == '-' then
      match rest with
      | c :: rest2 =>
        if isAlphaCh c then
          (matchDigits1012 rest2).map (fun ds => x :: i :: d :: p :: dash :: c :: ds)
        else
          (matchDigits1012 rest).map (fun ds => x :: i :: d :: p :: dash :: ds)
      | [] => none
    else none
  | _ => none

/-- Leftmost search for the order-number pattern (Python `re.search`). -/
def searchOrder : List Char → Option (List Char)
  | [] => none
  | c :: rest =>
    match matchOrderAt (c :: rest) with
    | some m => some m
    | none => searchOrder rest

/-- `self.order_no_pattern.search(row_str)`, returning `group(0)` with
its original casing. -/
def findOrderNo (s : String) : Option String :=
  (searchOrder s.data).map (fun l => String.mk l)

/- ### The date regex: four digits, a dash-or-slash separator, one or
two digits, a separator, one or two digits -/

def isSepCh (c : Char) : Bool := c == '-' || c == '/'

/-- Match `\d{1,2}` followed by a separator (greedy, with the
backtracking of the Python engine), returning consumed characters and
the rest after the separator. -/
def matchMidDate : List Char → Option (List Char × List Char)
  | e :: f :: s :: rest =>
    if isDigitCh e && isDigitCh f && isSepCh s then some ([e, f, s], rest)
    else if isDigitCh e && isSepCh f then some ([e, f], s :: rest)
    else none
  | [e, f] => if isDigitCh e && isSepCh f then some ([e, f], []) else none
  | _ => none

/-- Try to match the date pattern at the head of `l`. -/
def matchDateAt (l : List Char) : Option (List Char) :=
  match l with
  | a :: b :: c :: d :: s1 :: rest =>
    if isDigitCh a && isDigitCh b && isDigitCh c && isDigitCh d && isSepCh s1 then
      match matchMidDate rest with
      | some (mid, rest2) =>
        let ds := rest2.takeWhile isDigitCh
        if ds.isEmpty then none
        else some (a :: b :: c :: d :: s1 :: (mid ++ ds.take 2))
      | none => none
    else none
  | _ => none

/-- Leftmost search for the date pattern. -/
def searchDate : List Char → Option (List Char)
  | [] => none
  | c :: rest =>
    match matchDateAt (c :: rest) with
    | some m => some m
    | none => searchDate rest

/-- The date search performed on the trigger row text (`re.search` of
the date pattern above on `row_str`). -/
def findDate (s : String) : Option String :=
  (searchDate s.data).map (fun l => String.mk l)

/- ### Exact decimal numbers

Every number the tool handles is parsed from decimal cell text,
multiplied, or rounded to two places, so all values are exact decimals.
We model them as `m * 10 ^ (-e)` in canonical form (no trailing zero
factor of ten in `m` while `e > 0`), which gives structural decidable
equality; the binary-float artifacts of CPython are outside the scope
of this model. -/

structure Dec where
  m : ℤ
  e : ℕ
deriving DecidableEq, Repr

/-- Canonicalize by removing common factors of ten. -/
def normPair : ℤ → ℕ → ℤ × ℕ
  | m, 0 => (m, 0)
  | m, e + 1 => if m.emod 10 = 0 then normPair (m.ediv 10) e else (m, e + 1)

def mkDec (m : ℤ) (e : ℕ) : Dec :=
  let p := normPair m e
  ⟨p.1, p.2⟩

def decZero : Dec := ⟨0, 0⟩

/-- Multiplication of exact decimals. -/
def mulDec (a b : Dec) : Dec := mkDec (a.m * b.m) (a.e + b.e)

/- ### Numeric coercion: `safe_float` -/

def digitVal (c : Char) : Nat := c.toNat - 48

def digitsVal (cs : List Char) : Nat :=
  cs.foldl (fun a c => a * 10 + digitVal c) 0

/-- Nonempty all-digit run. -/
def allDigits (cs : List Char) : Bool := !cs.isEmpty && cs.all isDigitCh

/-- Parse an unsigned decimal mantissa (`123`, `1.5`, `1.`, `.5`),
the shapes accepted by CPython `float` for a finite plain literal. -/
def parseMantissa (cs : List Char) : Option Dec :=
  let a := cs.takeWhile (fun c => c != '.')
  let rest := cs.dropWhile (fun c => c != '.')
  match rest with
  | [] => if allDigits a then some (mkDec (digitsVal a : ℤ) 0) else none
  | _ :: b =>
    if b.any (fun c => c == '.') then none
    else if a.isEmpty && b.isEmpty then none
    else if a.all isDigitCh && b.all isDigitCh then
      some (mkDec (digitsVal (a ++ b) : ℤ) b.length)
    else none

/-- Parse a signed integer (exponent part of a float literal). -/
def parseSignedInt (cs : List Char) : Option ℤ :=
  match cs with
  | '+' :: r => if allDigits r then some (digitsVal r : ℤ) else none
  | '-' :: r => if allDigits r then some (-(digitsVal r : ℤ)) else none
  | r => if allDigits r then some (digitsVal r : ℤ) else none

/-- Scale a decimal by `10 ^ k` for a signed `k`. -/
def scaleDec (d : Dec) (k : ℤ) : Dec :=
  match k with
  | Int.ofNat n => mkDec (d.m * (10 : ℤ) ^ n) d.e
  | Int.negSucc n => mkDec d.m (d.e + (n + 1))

/-- Model of CPython `float(s)` on finite decimal literals with an
optional sign and exponent (`inf`, `nan` and underscore separators are
outside the scope of this model; the tool feeds it spreadsheet cell
text). -/
def parseFloat (s : String) : Option Dec :=
  let cs := s.data
  let sign : Bool × List Char :=
    match cs with
    | '+' :: r => (false, r)
    | '-' :: r => (true, r)
    | r => (false, r)
  let m := sign.2.takeWhile (fun c => c != 'e' && c != 'E')
  let erest := sign.2.dropWhile (fun c => c != 'e' && c != 'E')
  let v : Option Dec :=
    match erest with
    | [] => parseMantissa m
    | _ :: ex =>
      match parseMantissa m, parseSignedInt ex with
      | some b, some e => some (scaleDec b e)
      | _, _ => none
  v.map (fun d => if sign.1 then mkDec (-d.m) d.e else d)

/-- `safe_float` from `src/main.py`: total coercion of an optional cell
text to a number.  `none` models Python `None` (a key absent from the
row dict); empty or whitespace-only text and unparseable text coerce to
zero; otherwise the text is stripped, its commas removed, and parsed. -/
def safe_float (x : Option String) : Dec :=
  match x with
  | none => decZero
  | some s =>
    if trimStr s = "" then decZero
    else (parseFloat (stripCommas (trimStr s))).getD decZero

/-- Python `round(x, 2)` on the exact decimal value, using
round-half-to-even as CPython does on exact ties. -/
def round2 (d : Dec) : Dec :=
  if d.e ≤ 2 then d
  else
    let p : ℤ := (10 : ℤ) ^ (d.e - 2)
    let q : ℤ := d.m.ediv p
    let r : ℤ := d.m.emod p
    let c : ℤ :=
      if 2 * r < p then q
      else if p < 2 * r then q + 1
      else if q.emod 2 = 0 then q else q + 1
    mkDec c 2

/-- Decimal digit string of a natural number, zero-padded on the left
to at least `w` digits. -/
def natDigitsPadded (n w : Nat) : List Char :=
  let s := (toString n).data
  List.replicate (w - s.length) '0' ++ s

/-- Python `str` rendering of the quantity as stored by the scanner:
the scanner stores `int(qty)` when the value is integral, which renders
without a fractional part, and the (decimal) float otherwise, which
renders as a plain decimal numeral. -/
def renderQty (d : Dec) : String :=
  if d.e = 0 then toString d.m
  else
    let sign := if d.m < 0 then "-" else ""
    let ds := natDigitsPadded d.m.natAbs (d.e + 1)
    sign ++ String.mk (ds.take (ds.length - d.e)) ++ "." ++
      String.mk (ds.drop (ds.length - d.e))

/- ### Header mapping (`create_header_map`, `map_row_to_std`) -/

/-- The ordered standard columns (`self.standard_columns`). -/
def standard_columns : List String :=
  ["序号", "品名", "规格/图号", "单位", "数量", "单价", "金额", "备注/本体单重"]

/-- The ordered field-to-alias table (`self.mapping_keywords`), in the
iteration (insertion) order of the Python dict. -/
def mappingKeywords : List (String × List String) :=
  [("品名", ["品名", "物料名称", "product name", "material name"]),
   ("规格/图号", ["规格", "图号", "物料规格", "spec", "specification", "型号"]),
   ("单位", ["单位", "unit", "uom", "采购单位"]),
   ("数量", ["数量", "qty", "quantity", "采购数量", "报价数量"]),
   ("单价", ["单价", "price", "unit price", "报价单价"]),
   ("金额", ["金额", "total", "amount"]),
   ("备注/本体单重", ["备注", "remarks", "本体单重", "item no. remarks", "询价说明"]),
   ("询价人", ["询价人", "inquirer"]),
   ("代购厂商", ["代购厂商", "purchasing agent", "代购"])]

/-- A header map: standard field name to column index, in insertion
order (the Python dict `h_map`; keys are unique by construction). -/
abbrev HMap := List (String × Nat)

/-- Dict lookup `h_map.get(k)` (first binding wins; bindings are
unique). -/
def lookupN (h : HMap) (k : String) : Option Nat :=
  (h.find? (fun p => p.1 == k)).map (fun p => p.2)

/-- Does the lower-cased cell text contain one of the aliases
(`any(kw in low_val for kw in keywords)`)? -/
def kwMatch (kws : List String) (val : String) : Bool :=
  kws.any (fun kw => occursIn kw.data (lowerStr val).data)

/-- Process one column of the header row against every standard field:
the inner `for std_key, keywords in self.mapping_keywords.items()` loop
of `create_header_map`, guarded by `std_key not in h_map`. -/
def stepCol (h : HMap) (i : Nat) (val : String) : HMap :=
  mappingKeywords.foldl
    (fun h p =>
      match lookupN h p.1 with
      | some _ => h
      | none => if kwMatch p.2 val then h ++ [(p.1, i)] else h)
    h

/-- The outer `for idx, val in enumerate(row_values)` loop. -/
def chmAux : List String → Nat → HMap → HMap
  | [], _, h => h
  | v :: rest, i, h => chmAux rest (i + 1) (stepCol h i v)

/-- `OrderProcessor.create_header_map(row_values)`. -/
def create_header_map (row : List String) : HMap := chmAux row 0 []

/-- The fixed unit alias table `UNIT_MAP`, in dict order. -/
def unitMap : List (String × String) :=
  [("個", "个"), ("個/pcs", "个"), ("臺", "台"), ("臺/台", "台"),
   ("公斤", "kg"), ("千克", "kg"), ("g", "g"), ("公斤/公斤", "kg")]

/-- `OrderProcessor.normalize_unit(u)`: first alias occurring as a
substring of the raw text wins; unmatched text passes through. -/
def normalize_unit (u : String) : String :=
  match unitMap.find? (fun p => occursIn p.1.data u.data) with
  | some p => p.2
  | none => u

/-- A projected row: field name to raw cell text, in header-map order
(the Python dict `res` of `map_row_to_std`; keys unique since header
map keys are). -/
abbrev ItemData := List (String × String)

/-- Dict lookup `item_data.get(k)` (`none` models a missing key). -/
def lookupS (item : ItemData) (k : String) : Option String :=
  (item.find? (fun p => p.1 == k)).map (fun p => p.2)

/-- `OrderProcessor.map_row_to_std(row_values, h_map)`: read the cell
at each mapped index (skipping indices beyond the row width), applying
unit normalization only to the unit field. -/
def map_row_to_std (rv : List String) (h : HMap) : ItemData :=
  h.foldl
    (fun res p =>
      if p.2 < rv.length then
        res ++ [(p.1, if p.1 = "单位" then normalize_unit (rv.getD p.2 "")
                      else rv.getD p.2 "")]
      else res)
    []

/- ### Sections and the scan state machine (`parse_file_to_sections`) -/

/-- One emitted line item (the `filtered_item` dict restricted to
`standard_columns`; the three numeric fields are stored as numbers,
the rest as text). -/
structure StdRecord where
  seq : String
  name : String
  spec : String
  unit : String
  qty : Dec
  price : Dec
  amount : Dec
  remarks : String
deriving DecidableEq, Repr

/-- One detected order block (the `current_section` dict). -/
structure Section where
  order_no : String
  date : String
  info : String
  header_map : Option HMap
  data_rows : List StdRecord
deriving DecidableEq, Repr

/-- The mutable scan state of the row loop. -/
structure ScanState where
  sections : List Section
  current : Option Section
  header_map : Option HMap
deriving DecidableEq, Repr

/-- The header-row test: the concatenated row text must contain a
name-like keyword and a quantity-or-price keyword. -/
def isHeaderRow (rs : String) : Bool :=
  (["品名", "物料名称", "规格"].any (fun k => occursIn k.data rs.data)) &&
    (["数量", "单价"].any (fun k => occursIn k.data rs.data))

/-- Flush the active section into the result sequence, discarding it
when it holds no data rows (`if current_section and not
current_section['data_rows'].empty`). -/
def flushCurrent (secs : List Section) (cur : Option Section) : List Section :=
  match cur with
  | some s => if s.data_rows.isEmpty then secs else secs ++ [s]
  | none => secs

/-- The section opened at an order-number boundary. -/
def newSection (fid : String) (rs : String) (hm : Option HMap) : Section :=
  { order_no := fid, date := (findDate rs).getD "", info := "",
    header_map := hm, data_rows := [] }

/-- Boundary test: an order-number token was found and either no
section is active or the token differs (case-sensitively) from the
active order number. -/
def boundaryId (found : Option String) (cur : Option Section) : Option String :=
  match found, cur with
  | some fid, none => some fid
  | some fid, some s => if fid = s.order_no then none else some fid
  | none, _ => none

/-- Apply the order-number boundary rule to the state for one row. -/
def applyBoundary (st : ScanState) (rs : String) : ScanState :=
  match boundaryId (findOrderNo rs) st.current with
  | some fid =>
    { sections := flushCurrent st.sections st.current,
      current := some (newSection fid rs st.header_map),
      header_map := st.header_map }
  | none => st

/-- The implicit section opened when a data row appears with no active
section: it takes the file-global fallback order id. -/
def implicitSection (gid : String) (hm : HMap) : Section :=
  { order_no := gid, date := "", info := "", header_map := some hm,
    data_rows := [] }

/-- The placeholder set treated as empty when deriving `info`. -/
def infoPlaceholders : List String := ["无", "無", "none", "null", "-", "nan"]

/-- Derive the one-shot `info` descriptor from the purchasing-agent and
inquirer cells of the first data row. -/
def mkInfo (item : ItemData) : String :=
  let agent0 := trimStr ((lookupS item "代购厂商").getD "")
  let inquirer0 := trimStr ((lookupS item "询价人").getD "")
  let agent := if infoPlaceholders.contains (lowerStr agent0) then "" else agent0
  let inquirer :=
    if infoPlaceholders.contains (lowerStr inquirer0) then "" else inquirer0
  let parts := [agent, inquirer].filter (fun p => p ≠ "")
  match parts with
  | [] => "工单详情"
  | [p] => p
  | p :: q :: _ => p ++ "，" ++ q

/-- Build the standardized record appended for a data row: quantity and
price coerced leniently, price rounded to two places, amount recomputed
from the coerced quantity and price (never read from the source amount
column). -/
def mkRecord (item : ItemData) : StdRecord :=
  let qty := safe_float (lookupS item "数量")
  let prc := safe_float (lookupS item "单价")
  { seq := (lookupS item "序号").getD "",
    name := (lookupS item "品名").getD "",
    spec := (lookupS item "规格/图号").getD "",
    unit := (lookupS item "单位").getD "",
    qty := qty,
    price := round2 prc,
    amount := round2 (mulDec qty prc),
    remarks := (lookupS item "备注/本体单重").getD "" }

/-- Item names that are rejected as header-label placeholders. -/
def headerPlaceholders : List String :=
  ["品名", "物料名称", "Material Name", "物料名称(品名)"]

/-- Apply the data-row rule: when a header map exists and the row
projects to an acceptable item name, append the record to the active
section, opening an implicit section first when none is active, and
derive `info` once on the first record. -/
def applyData (gid : String) (st : ScanState) (rv : List String) : ScanState :=
  match st.header_map with
  | none => st
  | some hm =>
    let item := map_row_to_std rv hm
    let p := (lookupS item "品名").getD ""
    if p ≠ "" ∧ p ∉ headerPlaceholders then
      let cur := st.current.getD (implicitSection gid hm)
      let cur2 :=
        { cur with
          info := if cur.info = "" then mkInfo item else cur.info,
          data_rows := cur.data_rows ++ [mkRecord item] }
      { st with current := some cur2 }
    else st

/-- One iteration of the row loop of `parse_file_to_sections`: a header
row only rebuilds the header map (and re-attaches it to the active
section); any other row is checked for an order-number boundary and
then projected as a data row. -/
def stepRow (gid : String) (st : ScanState) (row : List String) : ScanState :=
  let rv := row.map trimStr
  let rs := joinRow rv
  if isHeaderRow rs then
    let hm := create_header_map rv
    { sections := st.sections,
      current := st.current.map (fun s => { s with header_map := some hm }),
      header_map := some hm }
  else
    applyData gid (applyBoundary st rs) rv

/-- The `df.empty` test of pandas: no rows or no columns. -/
def gridEmpty (g : Grid) : Bool := g.isEmpty || g.any List.isEmpty

/-- The first-pass fallback id: the first order-number token found
scanning the raw (unstripped) rows top to bottom, or the sentinel
`未知单号` when no row matches. -/
def global_id (g : Grid) : String :=
  match g.findSome? (fun row => findOrderNo (joinRow row)) with
  | some i => i
  | none => "未知单号"

/-- `OrderProcessor.parse_file_to_sections`, as a function of the
loaded grid. -/
def parse_file_to_sections (g : Grid) : List Section :=
  if gridEmpty g then []
  else
    let st := g.foldl (stepRow (global_id g)) ⟨[], none, none⟩
    flushCurrent st.sections st.current

/- ### Export and deduplication (`WorkerThread.run`)

The worker iterates the batch files, parses each into sections, and
writes the surviving records; styling and workbook cells are outside
the data model, so the export is modelled as the ordered list of
written record rows with their assigned sequence numbers. -/

/-- The deduplication key: order number, item name, spec or drawing
number, and the quantity rendered as text (`str(row['数量'])`). -/
abbrev DedupKey := String × String × String × String

def dedupKey (ono : String) (r : StdRecord) : DedupKey :=
  (ono, r.name, r.spec, renderQty r.qty)

/-- One written data row of the output sheet. -/
structure OutRow where
  seqNo : Nat
  order_no : String
  item : StdRecord
deriving DecidableEq, Repr

def keyOf (o : OutRow) : DedupKey := dedupKey o.order_no o.item

/-- The per-section record loop: consult and update the batch-wide seen
set, skipping any record whose key was already seen; `written` is the
per-section written count used for the 1-based sequence numbers. -/
def expRecs (ono : String) :
    List StdRecord → List DedupKey → Nat → List DedupKey × Nat × List OutRow
  | [], seen, written => (seen, written, [])
  | r :: rs, seen, written =>
    let sig := dedupKey ono r
    if sig ∈ seen then expRecs ono rs seen written
    else
      let t := expRecs ono rs (seen ++ [sig]) (written + 1)
      (t.1, t.2.1, ⟨written + 1, ono, r⟩ :: t.2.2)

/-- The section loop: the written count restarts at zero per section,
the seen set threads through. -/
def expSecs : List Section → List DedupKey → List DedupKey × List OutRow
  | [], seen => (seen, [])
  | sec :: rest, seen =>
    let t := expRecs sec.order_no sec.data_rows seen 0
    let u := expSecs rest t.1
    (u.1, t.2.2 ++ u.2)

/-- The file loop: each file is parsed to sections and exported; the
seen set persists across files. -/
def expFiles : List Grid → List DedupKey → List DedupKey × List OutRow
  | [], seen => (seen, [])
  | g :: gs, seen =>
    let t := expSecs (parse_file_to_sections g) seen
    let u := expFiles gs t.1
    (u.1, t.2 ++ u.2)

/-- A whole batch run: the seen set is created once (`seen_rows =
set()`) and lives for the run. -/
def expBatch (grids : List Grid) : List OutRow := (expFiles grids []).2

/- ### The loader (`read_excel_smart`)

The pandas calls perform input and output and can raise; each attempt
is modelled by its outcome, `none` standing for a raised exception and
`some g` for a successfully loaded grid.  `csvResults` are the
outcomes of the `pd.read_csv` attempts per candidate encoding, in
order; `excelResult` the outcome of the final `pd.read_excel` call. -/
def read_excel_smart (isCsv : Bool) (csvResults : List (Option Grid))
    (excelResult : Option Grid) : Grid :=
  if isCsv then
    match csvResults.findSome? id with
    | some g => g
    | none => excelResult.getD []
  else excelResult.getD []

/- ### Concrete grids used by counterexamples and witnesses -/

/-- A grid whose third row passes the header-row test and also carries
a fresh order-number token. -/
def gridA : Grid :=
  [["品名 数量 单价"], ["XIDP-0000000001"], ["品名 XIDP-0000000002 数量"],
   ["item 2 3"]]

/-- A grid carrying two distinct order-number tokens on header rows
before its first data row. -/
def gridB : Grid :=
  [["品名 XIDP-0000000001 数量"], ["品名 XIDP-0000000002 数量"], ["item"]]

/-- A grid with the same order number twice, in different casing. -/
def gridCase : Grid :=
  [["品名 数量 单价"], ["XIDP-1234567890"], ["xidp-1234567890"]]

/-- A tiny well-behaved grid producing one section with one record. -/
def gridW : Grid := [["品名 数量 单价"], ["XIDP-1234567890"]]

/-- The section produced by `gridW`. -/
def secW : Section :=
  { order_no := "XIDP-1234567890", date := "", info := "工单详情",
    header_map := some [("品名", 0), ("数量", 0), ("单价", 0)],
    data_rows := [{ seq := "", name := "XIDP-1234567890", spec := "", unit := "",
                    qty := ⟨0, 0⟩, price := ⟨0, 0⟩, amount := ⟨0, 0⟩,
                    remarks := "" }] }

/-- A grid containing the same data row twice. -/
def gridDup : Grid :=
  [["品名 数量 单价"], ["XIDP-1234567890"], ["dup 1 2"], ["dup 1 2"]]

/- ### Characterization of `create_header_map` -/

/-- Index of the first entry satisfying `p`. -/
def firstIdx (p : α → Bool) : List α → Option Nat
  | [] => none
  | a :: l => if p a then some 0 else (firstIdx p l).map (· + 1)

/-- First column index matching `p` that is not yet claimed: the
column-assignment step of the procedure described by the
specification. -/
def firstFreeIdx (claimed : List Nat) (p : String → Bool) :
    List String → Nat → Option Nat
  | [], _ => none
  | v :: rest, i =>
    if p v && !(claimed.contains i) then some i
    else firstFreeIdx claimed p rest (i + 1)

/-- The header-map assignment procedure as the specification describes
it (field order takes precedence over column order, and a column is
claimed by at most one field), defined only to be compared with the
source procedure `create_header_map`. -/
def headerMapClaimed (row : List String) : HMap :=
  (mappingKeywords.foldl
      (fun acc p =>
        match firstFreeIdx acc.1 (kwMatch p.2) row 0 with
        | some i => (acc.1 ++ [i], acc.2 ++ [(p.1, i)])
        | none => acc)
      ([], [])).2

lemma lookupN_append (h : HMap) (a : String) (i : Nat) (k : String) :
    lookupN (h ++ [(a, i)]) k =
      match lookupN h k with
      | some j => some j
      | none => if a == k then some i else none := by
  induction h with
  | nil =>
    simp only [List.nil_append, lookupN, List.find?]
    cases hb : (a == k) <;> simp
  | cons p rest ih =>
    cases hpk : (p.1 == k) with
    | true => simp [lookupN, List.find?, hpk]
    | false =>
      simp only [List.cons_append, lookupN, List.find?, hpk] at ih ⊢
      exact ih

/-- Effect of one header-row column on the lookup of a fixed field. -/
lemma lookupN_stepCol_general (L : List (String × List String)) (h : HMap)
    (i : Nat) (v : String) (k : String) :
    lookupN
        (L.foldl
          (fun h p =>
            match lookupN h p.1 with
            | some _ => h
            | none => if kwMatch p.2 v then h ++ [(p.1, i)] else h)
          h) k =
      match lookupN h k with
      | some j => some j
      | none => if L.any (fun p => p.1 == k && kwMatch p.2 v) then some i
                else none := by
  induction L generalizing h with
  | nil =>
    simp only [List.foldl_nil, List.any_nil]
    cases hl : lookupN h k <;> simp
  | cons p L ih =>
    simp only [List.foldl_cons, List.any_cons]
    cases hs : lookupN h p.1 with
    | some j0 =>
      rw [ih]
      cases hl : lookupN h k with
      | some j => rfl
      | none =>
        have hpk : (p.1 == k) = false := by
          cases hb : (p.1 == k) with
          | true => rw [eq_of_beq hb, hl] at hs; exact Option.noConfusion hs
          | false => rfl
        simp only [hpk]
        rfl
    | none =>
      dsimp only
      by_cases hkw : kwMatch p.2 v = true
      · rw [if_pos hkw, ih, lookupN_append]
        cases hl : lookupN h k with
        | some j => rfl
        | none =>
          by_cases hpk : (p.1 == k) = true
          · simp only [hpk, hkw]; rfl
          · have hpk2 : (p.1 == k) = false := by
              cases hb : (p.1 == k) with
              | true => exact absurd hb hpk
              | false => rfl
            simp only [hpk2, hkw]; rfl
      · have hkw2 : kwMatch p.2 v = false := by
          cases hb : kwMatch p.2 v with
          | true => exact absurd hb hkw
          | false => rfl
        rw [if_neg hkw, ih]
        cases hl : lookupN h k with
        | some j => rfl
        | none => simp only [hkw2, Bool.and_false, Bool.false_or]

lemma lookupN_stepCol (h : HMap) (i : Nat) (v : String) (k : String) :
    lookupN (stepCol h i v) k =
      match lookupN h k with
      | some j => some j
      | none =>
        if mappingKeywords.any (fun p => p.1 == k && kwMatch p.2 v) then some i
        else none :=
  lookupN_stepCol_general mappingKeywords h i v k

lemma lookupN_chmAux (row : List String) (i : Nat) (h : HMap) (k : String) :
    lookupN (chmAux row i h) k =
      match lookupN h k with
      | some j => some j
      | none =>
        (firstIdx (fun v => mappingKeywords.any fun p => p.1 == k && kwMatch p.2 v)
            row).map (i + ·) := by
  induction row generalizing i h with
  | nil =>
    simp only [chmAux]
    cases hl : lookupN h k with
    | some j => rfl
    | none => rfl
  | cons v rest ih =>
    simp only [chmAux, firstIdx]
    rw [ih, lookupN_stepCol]
    cases hl : lookupN h k with
    | some j => simp
    | none =>
      by_cases hv : mappingKeywords.any (fun p => p.1 == k && kwMatch p.2 v)
      · simp [hv]
      · simp only [hv, if_false, Bool.false_eq_true]
        cases hf : firstIdx
            (fun v => mappingKeywords.any fun p => p.1 == k && kwMatch p.2 v)
            rest with
        | none => simp [hv, hf]
        | some n => simp [hv, hf]; omega

lemma any_of_not_memKey (L : List (String × List String)) (k : String)
    (q : String × List String → Bool) (hk : k ∉ L.map Prod.fst) :
    L.any (fun p => p.1 == k && q p) = false := by
  induction L with
  | nil => simp
  | cons p L ih =>
    simp only [List.map_cons, List.mem_cons] at hk
    push_neg at hk
    simp only [List.any_cons, Bool.or_eq_false_iff]
    constructor
    · have hne : (p.1 == k) = false := by
        cases hb : (p.1 == k) with
        | true => exact absurd (eq_of_beq hb).symm hk.1
        | false => rfl
      simp [hne]
    · exact ih hk.2

lemma any_key_eq (L : List (String × List String)) (k : String)
    (kws : List String) (v : String) (hmem : (k, kws) ∈ L)
    (hnd : (L.map Prod.fst).Nodup) :
    L.any (fun p => p.1 == k && kwMatch p.2 v) = kwMatch kws v := by
  induction L with
  | nil => simp at hmem
  | cons p L ih =>
    simp only [List.map_cons, List.nodup_cons] at hnd
    rcases List.mem_cons.mp hmem with hp | hp
    · subst hp
      simp only [List.any_cons, beq_self_eq_true, Bool.true_and]
      rw [any_of_not_memKey L k _ hnd.1]
      simp
    · have hkne : (p.1 == k) = false := by
        cases hb : (p.1 == k) with
        | true =>
          have : k ∈ L.map Prod.fst :=
            List.mem_map.mpr ⟨(k, kws), hp, rfl⟩
          rw [eq_of_beq hb] at hnd
          exact absurd this hnd.1
        | false => rfl
      simp only [List.any_cons, hkne, Bool.false_and, Bool.false_or]
      exact ih hp hnd.2

/- ### Scan-state invariants -/

lemma applyData_sections (gid : String) (st : ScanState) (rv : List String) :
    (applyData gid st rv).sections = st.sections := by
  rcases st with ⟨secs, cur, hm⟩
  cases hm with
  | none => rfl
  | some hm =>
    simp only [applyData]
    split <;> rfl

lemma applyBoundary_cases (st : ScanState) (rs : String) :
    applyBoundary st rs = st ∨
    ∃ fid, applyBoundary st rs =
      { sections := flushCurrent st.sections st.current,
        current := some (newSection fid rs st.header_map),
        header_map := st.header_map } := by
  unfold applyBoundary
  cases boundaryId (findOrderNo rs) st.current with
  | none => exact Or.inl rfl
  | some fid => exact Or.inr ⟨fid, rfl⟩

lemma mem_flushCurrent {secs : List Section} {cur : Option Section} {s : Section}
    (h : s ∈ flushCurrent secs cur) :
    s ∈ secs ∨ (cur = some s ∧ s.data_rows ≠ []) := by
  unfold flushCurrent at h
  cases cur with
  | none => exact Or.inl h
  | some c =>
    dsimp only at h
    by_cases he : c.data_rows.isEmpty = true
    · rw [if_pos he] at h
      exact Or.inl h
    · rw [if_neg he] at h
      rcases List.mem_append.mp h with h1 | h1
      · exact Or.inl h1
      · have hsc : s = c := List.mem_singleton.mp h1
        subst hsc
        refine Or.inr ⟨rfl, fun hnil => ?_⟩
        rw [hnil] at he
        exact he rfl

lemma mem_stepRow_sections {gid : String} {st : ScanState} {row : List String}
    {s : Section} (h : s ∈ (stepRow gid st row).sections) :
    s ∈ st.sections ∨ s.data_rows ≠ [] := by
  simp only [stepRow] at h
  by_cases hh : isHeaderRow (joinRow (List.map trimStr row)) = true
  · rw [if_pos hh] at h
    exact Or.inl h
  · rw [if_neg hh] at h
    rw [applyData_sections] at h
    rcases applyBoundary_cases st (joinRow (List.map trimStr row)) with hc | ⟨fid, hc⟩
    · rw [hc] at h
      exact Or.inl h
    · rw [hc] at h
      rcases mem_flushCurrent h with h1 | ⟨_, h2⟩
      · exact Or.inl h1
      · exact Or.inr h2

lemma scan_sections_inv (gid : String) (rows : List (List String)) :
    ∀ st : ScanState, (∀ s ∈ st.sections, s.data_rows ≠ []) →
      ∀ s ∈ (rows.foldl (stepRow gid) st).sections, s.data_rows ≠ [] := by
  induction rows with
  | nil => exact fun st h s hs => h s hs
  | cons row rest ih =>
    intro st h s hs
    rw [List.foldl_cons] at hs
    refine ih (stepRow gid st row) (fun s2 hs2 => ?_) s hs
    rcases mem_stepRow_sections hs2 with h1 | h1
    · exact h s2 h1
    · exact h1

/-- A record that originates from projecting some row through
`mkRecord` (the only way the scanner ever builds a record). -/
def FromItem (r : StdRecord) : Prop := ∃ item : ItemData, r = mkRecord item

/-- The projection-origin invariant over the scan state. -/
def InvS (st : ScanState) : Prop :=
  (∀ s ∈ st.sections, ∀ r ∈ s.data_rows, FromItem r) ∧
  (∀ s, st.current = some s → ∀ r ∈ s.data_rows, FromItem r)

lemma applyBoundary_InvS {st : ScanState} (rs : String) (h : InvS st) :
    InvS (applyBoundary st rs) := by
  rcases applyBoundary_cases st rs with hc | ⟨fid, hc⟩
  · rw [hc]; exact h
  · rw [hc]
    constructor
    · intro s hs r hr
      rcases mem_flushCurrent hs with h1 | ⟨h2, _⟩
      · exact h.1 s h1 r hr
      · exact h.2 s h2 r hr
    · intro s hs r hr
      have : s = newSection fid rs st.header_map := by
        exact (Option.some.injEq _ _).mp hs.symm
      rw [this] at hr
      exact absurd hr (List.not_mem_nil r)

lemma applyData_InvS {gid : String} {st : ScanState} (rv : List String)
    (h : InvS st) : InvS (applyData gid st rv) := by
  rcases hst : st with ⟨secs, cur, hm⟩
  rw [hst] at h
  cases hm with
  | none => exact h
  | some hm =>
    simp only [applyData]
    split
    · constructor
      · exact h.1
      · intro s hs r hr
        simp only [Option.some.injEq] at hs
        rw [← hs] at hr
        simp only [] at hr
        rcases List.mem_append.mp hr with h1 | h1
        · cases cur with
          | none =>
            simp only [Option.getD_none, implicitSection] at h1
            exact absurd h1 (List.not_mem_nil r)
          | some c =>
            simp only [Option.getD_some] at h1
            exact h.2 c rfl r h1
        · have : r = mkRecord (map_row_to_std rv hm) := List.mem_singleton.mp h1
          exact ⟨map_row_to_std rv hm, this⟩
    · exact h

lemma stepRow_InvS (gid : String) (row : List String) {st : ScanState}
    (h : InvS st) : InvS (stepRow gid st row) := by
  simp only [stepRow]
  by_cases hh : isHeaderRow (joinRow (List.map trimStr row)) = true
  · rw [if_pos hh]
    constructor
    · exact h.1
    · intro s hs r hr
      cases hcur : st.current with
      | none => rw [hcur] at hs; exact absurd hs (by simp)
      | some c =>
        rw [hcur] at hs
        simp only [Option.map_some', Option.some.injEq] at hs
        rw [← hs] at hr
        exact h.2 c hcur r hr
  · rw [if_neg hh]
    exact applyData_InvS _ (applyBoundary_InvS _ h)

lemma scan_InvS (gid : String) (rows : List (List String)) :
    ∀ st : ScanState, InvS st → InvS (rows.foldl (stepRow gid) st) := by
  induction rows with
  | nil => exact fun st h => h
  | cons row rest ih =>
    intro st h
    rw [List.foldl_cons]
    exact ih _ (stepRow_InvS gid row h)

lemma parse_FromItem {g : Grid} {s : Section} {r : StdRecord}
    (hs : s ∈ parse_file_to_sections g) (hr : r ∈ s.data_rows) : FromItem r := by
  simp only [parse_file_to_sections] at hs
  by_cases hg : gridEmpty g = true
  · rw [if_pos hg] at hs
    exact absurd hs (List.not_mem_nil s)
  · rw [if_neg hg] at hs
    have hinv : InvS (g.foldl (stepRow (global_id g)) ⟨[], none, none⟩) := by
      refine scan_InvS (global_id g) g ⟨[], none, none⟩ ⟨?_, ?_⟩
      · intro s2 hs2
        exact absurd hs2 (List.not_mem_nil s2)
      · intro s2 hs2
        exact absurd hs2 (by simp)
    rcases mem_flushCurrent hs with h1 | ⟨h2, _⟩
    · exact hinv.1 s h1 r hr
    · exact hinv.2 s h2 r hr

/- ### Deduplication invariants -/

lemma expRecs_inv (ono : String) (rows : List StdRecord) :
    ∀ (seen : List DedupKey) (w : Nat),
      (∀ k ∈ seen, k ∈ (expRecs ono rows seen w).1) ∧
      (∀ o ∈ (expRecs ono rows seen w).2.2,
        keyOf o ∉ seen ∧ keyOf o ∈ (expRecs ono rows seen w).1) ∧
      ((expRecs ono rows seen w).2.2.map keyOf).Nodup := by
  induction rows with
  | nil =>
    intro seen w
    exact ⟨fun k hk => hk, fun o ho => absurd ho (List.not_mem_nil o), List.nodup_nil⟩
  | cons r rs ih =>
    intro seen w
    by_cases hmem : dedupKey ono r ∈ seen
    · simp only [expRecs, if_pos hmem]
      exact ih seen w
    · simp only [expRecs, if_neg hmem]
      obtain ⟨ih1, ih2, ih3⟩ := ih (seen ++ [dedupKey ono r]) (w + 1)
      refine ⟨?_, ?_, ?_⟩
      · intro k hk
        exact ih1 k (List.mem_append.mpr (Or.inl hk))
      · intro o ho
        rcases List.mem_cons.mp ho with rfl | ho2
        · refine ⟨hmem, ?_⟩
          exact ih1 _ (List.mem_append.mpr (Or.inr (List.mem_singleton.mpr rfl)))
        · obtain ⟨hn, hi⟩ := ih2 o ho2
          exact ⟨fun hin => hn (List.mem_append.mpr (Or.inl hin)), hi⟩
      · rw [List.map_cons]
        refine List.nodup_cons.mpr ⟨?_, ih3⟩
        intro hmem2
        rcases List.mem_map.mp hmem2 with ⟨o, ho, hko⟩
        obtain ⟨hn, _⟩ := ih2 o ho
        apply hn
        rw [hko]
        exact List.mem_append.mpr (Or.inr (List.mem_singleton.mpr rfl))

lemma expSecs_inv (secs : List Section) :
    ∀ seen : List DedupKey,
      (∀ k ∈ seen, k ∈ (expSecs secs seen).1) ∧
      (∀ o ∈ (expSecs secs seen).2,
        keyOf o ∉ seen ∧ keyOf o ∈ (expSecs secs seen).1) ∧
      ((expSecs secs seen).2.map keyOf).Nodup := by
  induction secs with
  | nil =>
    intro seen
    exact ⟨fun k hk => hk, fun o ho => absurd ho (List.not_mem_nil o), List.nodup_nil⟩
  | cons sec rest ih =>
    intro seen
    obtain ⟨r1, r2, r3⟩ := expRecs_inv sec.order_no sec.data_rows seen 0
    obtain ⟨i1, i2, i3⟩ :=
      ih (expRecs sec.order_no sec.data_rows seen 0).1
    simp only [expSecs]
    refine ⟨?_, ?_, ?_⟩
    · exact fun k hk => i1 k (r1 k hk)
    · intro o ho
      rcases List.mem_append.mp ho with h1 | h1
      · obtain ⟨hn, hi⟩ := r2 o h1
        exact ⟨hn, i1 _ hi⟩
      · obtain ⟨hn, hi⟩ := i2 o h1
        exact ⟨fun hin => hn (r1 _ hin), hi⟩
    · rw [List.map_append]
      refine List.nodup_append.mpr ⟨r3, i3, ?_⟩
      intro k hk1 hk2
      rcases List.mem_map.mp hk1 with ⟨o, ho, rfl⟩
      rcases List.mem_map.mp hk2 with ⟨o2, ho2, he⟩
      obtain ⟨_, hi⟩ := r2 o ho
      obtain ⟨hn2, _⟩ := i2 o2 ho2
      apply hn2
      rw [he]
      exact hi

lemma expFiles_inv (grids : List Grid) :
    ∀ seen : List DedupKey,
      (∀ k ∈ seen, k ∈ (expFiles grids seen).1) ∧
      (∀ o ∈ (expFiles grids seen).2,
        keyOf o ∉ seen ∧ keyOf o ∈ (expFiles grids seen).1) ∧
      ((expFiles grids seen).2.map keyOf).Nodup := by
  induction grids with
  | nil =>
    intro seen
    exact ⟨fun k hk => hk, fun o ho => absurd ho (List.not_mem_nil o), List.nodup_nil⟩
  | cons g gs ih =>
    intro seen
    obtain ⟨r1, r2, r3⟩ := expSecs_inv (parse_file_to_sections g) seen
    obtain ⟨i1, i2, i3⟩ := ih (expSecs (parse_file_to_sections g) seen).1
    simp only [expFiles]
    refine ⟨?_, ?_, ?_⟩
    · exact fun k hk => i1 k (r1 k hk)
    · intro o ho
      rcases List.mem_append.mp ho with h1 | h1
      · obtain ⟨hn, hi⟩ := r2 o h1
        exact ⟨hn, i1 _ hi⟩
      · obtain ⟨hn, hi⟩ := i2 o h1
        exact ⟨fun hin => hn (r1 _ hin), hi⟩
    · rw [List.map_append]
      refine List.nodup_append.mpr ⟨r3, i3, ?_⟩
      intro k hk1 hk2
      rcases List.mem_map.mp hk1 with ⟨o, ho, rfl⟩
      rcases List.mem_map.mp hk2 with ⟨o2, ho2, he⟩
      obtain ⟨_, hi⟩ := r2 o ho
      obtain ⟨hn2, _⟩ := i2 o2 ho2
      apply hn2
      rw [he]
      exact hi

lemma expRecs_seqNo (ono : String) (rows : List StdRecord) :
    ∀ (seen : List DedupKey) (w : Nat),
      (expRecs ono rows seen w).2.2.map OutRow.seqNo =
        List.range' (w + 1) (expRecs ono rows seen w).2.2.length := by
  induction rows with
  | nil => intro seen w; rfl
  | cons r rs ih =>
    intro seen w
    by_cases hmem : dedupKey ono r ∈ seen
    · simp only [expRecs, if_pos hmem]
      exact ih seen w
    · simp only [expRecs, if_neg hmem]
      rw [List.map_cons, ih (seen ++ [dedupKey ono r]) (w + 1)]
      rfl

/- ### Step lemmas for the boundary and data rules -/

lemma applyBoundary_of_none {st : ScanState} {rs : String}
    (hf : findOrderNo rs = none) : applyBoundary st rs = st := by
  have hb : boundaryId (findOrderNo rs) st.current = none := by
    rw [hf]
    cases st.current <;> rfl
  unfold applyBoundary
  rw [hb]

lemma applyBoundary_new {st : ScanState} {rs : String} {fid : String}
    (hf : findOrderNo rs = some fid)
    (hne : ∀ s, st.current = some s → s.order_no ≠ fid) :
    applyBoundary st rs =
      { sections := flushCurrent st.sections st.current,
        current := some (newSection fid rs st.header_map),
        header_map := st.header_map } := by
  have hb : boundaryId (findOrderNo rs) st.current = some fid := by
    rw [hf]
    cases hcur : st.current with
    | none => rfl
    | some s =>
      dsimp only [boundaryId]
      rw [if_neg (fun he => (hne s hcur) he.symm)]
  unfold applyBoundary
  rw [hb]

lemma applyData_current_order {gid : String} {st : ScanState} (rv : List String)
    {c : Section} (hc : st.current = some c) :
    ((applyData gid st rv).current).map Section.order_no = some c.order_no := by
  rcases st with ⟨secs, cur, hm⟩
  simp only at hc
  subst hc
  cases hm with
  | none => rfl
  | some hm =>
    simp only [applyData]
    split
    · rfl
    · rfl

lemma findSome?_eq_none_of_all_isNone {L : List (Option Grid)}
    (h : L.all Option.isNone = true) : L.findSome? id = none := by
  induction L with
  | nil => rfl
  | cons o rest ih =>
    simp only [List.all_cons, Bool.and_eq_true] at h
    have ho : o = none := by
      cases o with
      | none => rfl
      | some g => exact absurd h.1 (by simp)
    subst ho
    simp only [List.findSome?]
    exact ih h.2

/- ### Inputs used by claim witnesses -/

def hmW : HMap := [("品名", 0), ("数量", 0), ("单价", 0)]

def secA : Section :=
  { order_no := "XIDP-0000000001", date := "", info := "",
    header_map := some hmW, data_rows := [] }

def stA : ScanState := ⟨[], some secA, some hmW⟩

def stB : ScanState := ⟨[], none, none⟩

def stC : ScanState := ⟨[], none, some [("品名", 0)]⟩

/-- A grid containing no order-number token at all. -/
def gNoTok : Grid := [["品名 数量"], ["item"]]

def itemX : ItemData :=
  [("品名", "bolt"), ("数量", "2"), ("单价", "3.5"), ("金额", "999")]

def itemY : ItemData :=
  [("品名", "bolt"), ("数量", "2"), ("单价", "3.5"), ("金额", "1")]

/-- The single record of `secW`. -/
def recW : StdRecord :=
  { seq := "", name := "XIDP-1234567890", spec := "", unit := "",
    qty := ⟨0, 0⟩, price := ⟨0, 0⟩, amount := ⟨0, 0⟩, remarks := "" }

def recP : StdRecord :=
  { seq := "", name := "a", spec := "s", unit := "u",
    qty := ⟨2, 0⟩, price := ⟨5, 0⟩, amount := ⟨10, 0⟩, remarks := "" }

def recQ : StdRecord :=
  { seq := "", name := "a", spec := "s", unit := "u",
    qty := ⟨2, 0⟩, price := ⟨7, 0⟩, amount := ⟨14, 0⟩, remarks := "" }

/- ### Claim theorems -/

/-- C1, counterexample: a row that passes the header-row test and
carries a fresh order-number token does not open or switch a section:
in `gridA` the third row is such a row, yet the scan emits a single
section whose order number is the earlier token, so the claimed
boundary switch never happened. -/
theorem C1_counterexample :
    isHeaderRow (joinRow ["品名 XIDP-0000000002 数量"]) = true ∧
    findOrderNo (joinRow ["品名 XIDP-0000000002 数量"]) =
      some "XIDP-0000000002" ∧
    (parse_file_to_sections gridA).map Section.order_no =
      ["XIDP-0000000001"] := by decide

/-- C1 (amended): the boundary order-number search runs only on rows
that fail the header-row test.  A header row leaves the emitted
sections and the active order number unchanged, while a non-header row
carrying a token different from the active order number always opens
or switches the section to that token. -/
theorem C1_header_rows_skip_boundary (gid : String) (st : ScanState)
    (row : List String) :
    (isHeaderRow (joinRow (List.map trimStr row)) = true →
      (stepRow gid st row).sections = st.sections ∧
      ((stepRow gid st row).current).map Section.order_no =
        (st.current).map Section.order_no) ∧
    (isHeaderRow (joinRow (List.map trimStr row)) = false →
      ∀ fid, findOrderNo (joinRow (List.map trimStr row)) = some fid →
      (∀ s, st.current = some s → s.order_no ≠ fid) →
      ((stepRow gid st row).current).map Section.order_no = some fid) := by
  constructor
  · intro hh
    simp only [stepRow]
    rw [if_pos hh]
    refine ⟨rfl, ?_⟩
    cases st.current with
    | none => rfl
    | some c => rfl
  · intro hh fid hf hne
    have hh2 : ¬ isHeaderRow (joinRow (List.map trimStr row)) = true := by
      rw [hh]
      exact Bool.false_ne_true
    simp only [stepRow]
    rw [if_neg hh2, applyBoundary_new hf hne]
    exact @applyData_current_order gid
      { sections := flushCurrent st.sections st.current,
        current := some (newSection fid (joinRow (List.map trimStr row)) st.header_map),
        header_map := st.header_map }
      (List.map trimStr row)
      (newSection fid (joinRow (List.map trimStr row)) st.header_map) rfl

theorem C1_witness :
    ((stepRow "未知单号" stA ["品名 XIDP-0000000002 数量"]).sections = stA.sections ∧
      ((stepRow "未知单号" stA ["品名 XIDP-0000000002 数量"]).current).map
          Section.order_no = (stA.current).map Section.order_no) ∧
    ((stepRow "未知单号" stB ["XIDP-0000000003"]).current).map Section.order_no =
      some "XIDP-0000000003" :=
  ⟨(C1_header_rows_skip_boundary "未知单号" stA ["品名 XIDP-0000000002 数量"]).1
      (by decide),
   (C1_header_rows_skip_boundary "未知单号" stB ["XIDP-0000000003"]).2
      (by decide) "XIDP-0000000003" (by decide)
      (fun s hs => Option.noConfusion hs)⟩

/-- C2, counterexample: in `gridB` the token `XIDP-0000000002` is the
most recently detected token before the data row (it sits on the second
row), yet the implicit section opened for the data row carries
`XIDP-0000000001`, the file-global first-detected token. -/
theorem C2_counterexample :
    findOrderNo (joinRow ["品名 XIDP-0000000002 数量"]) =
      some "XIDP-0000000002" ∧
    (parse_file_to_sections gridB).map Section.order_no =
      ["XIDP-0000000001"] ∧
    (parse_file_to_sections gridB).length = 1 := by decide

/-- C2 (amended): when a data row projects to an acceptable item name
while no section is active, the implicit section takes the file-global
first-detected order-number token (the first match of a top-to-bottom
prescan of the raw rows), falling back to the sentinel 未知单号 only
when no token occurs anywhere in the file. -/
theorem C2_implicit_first_token (g : Grid) (st : ScanState)
    (row : List String) (hcur : st.current = none)
    (hh : isHeaderRow (joinRow (List.map trimStr row)) = false)
    (hf : findOrderNo (joinRow (List.map trimStr row)) = none)
    (hm : HMap) (hhm : st.header_map = some hm)
    (hp : (lookupS (map_row_to_std (List.map trimStr row) hm) "品名").getD "" ≠ "" ∧
      (lookupS (map_row_to_std (List.map trimStr row) hm) "品名").getD "" ∉
        headerPlaceholders) :
    ((stepRow (global_id g) st row).current).map Section.order_no =
      some (global_id g) ∧
    (g.findSome? (fun r => findOrderNo (joinRow r)) = none →
      global_id g = "未知单号") := by
  constructor
  · have hh2 : ¬ isHeaderRow (joinRow (List.map trimStr row)) = true := by
      rw [hh]
      exact Bool.false_ne_true
    simp only [stepRow]
    rw [if_neg hh2, applyBoundary_of_none hf]
    rcases st with ⟨secs, cur, shm⟩
    simp only at hcur hhm
    subst hcur
    subst hhm
    simp only [applyData]
    rw [if_pos hp]
    rfl
  · intro hnone
    unfold global_id
    rw [hnone]

theorem C2_witness :
    ((stepRow (global_id gNoTok) stC ["item"]).current).map Section.order_no =
      some (global_id gNoTok) ∧
    global_id gNoTok = "未知单号" :=
  ⟨(C2_implicit_first_token gNoTok stC ["item"] rfl (by decide) (by decide)
      [("品名", 0)] rfl (by decide)).1,
   (C2_implicit_first_token gNoTok stC ["item"] rfl (by decide) (by decide)
      [("品名", 0)] rfl (by decide)).2 (by decide)⟩

/-- C3, counterexample: on the header row `["品名", "数量单价", "单价"]`
the source procedure assigns column 1 to both 数量 and 单价 (so a
column is claimed by two fields), while the procedure the claim
describes (field order first, exclusive columns) would give 单价
column 2. -/
theorem C3_counterexample :
    isHeaderRow (joinRow ["品名", "数量单价", "单价"]) = true ∧
    lookupN (create_header_map ["品名", "数量单价", "单价"]) "数量" = some 1 ∧
    lookupN (create_header_map ["品名", "数量单价", "单价"]) "单价" = some 1 ∧
    lookupN (headerMapClaimed ["品名", "数量单价", "单价"]) "单价" = some 2 := by
  decide

/-- C3 (amended): `create_header_map` scans columns in the outer loop
and fields in the inner loop; each standard field ends up assigned to
the first (leftmost) column whose lower-cased text contains one of the
field alias keywords, a field once assigned is never reassigned, and
one column may be assigned to several fields. -/
theorem C3_first_match_per_field (row : List String) (k : String)
    (kws : List String) (hmem : (k, kws) ∈ mappingKeywords) :
    lookupN (create_header_map row) k = firstIdx (fun v => kwMatch kws v) row := by
  have hnd : (mappingKeywords.map Prod.fst).Nodup := by decide
  unfold create_header_map
  rw [lookupN_chmAux]
  have hP : (fun v => mappingKeywords.any fun p => p.1 == k && kwMatch p.2 v) =
      fun v => kwMatch kws v :=
    funext fun v => any_key_eq mappingKeywords k kws v hmem hnd
  show (firstIdx
        (fun v => mappingKeywords.any fun p => p.1 == k && kwMatch p.2 v)
        row).map (fun x => 0 + x) =
      firstIdx (fun v => kwMatch kws v) row
  rw [hP]
  cases firstIdx (fun v => kwMatch kws v) row with
  | none => rfl
  | some n => simp

theorem C3_witness :
    lookupN (create_header_map ["品名", "数量单价", "单价"]) "数量" =
      firstIdx
        (fun v => kwMatch ["数量", "qty", "quantity", "采购数量", "报价数量"] v)
        ["品名", "数量单价", "单价"] :=
  C3_first_match_per_field ["品名", "数量单价", "单价"] "数量"
    ["数量", "qty", "quantity", "采购数量", "报价数量"] (by decide)

/-- C4: every section emitted by `parse_file_to_sections` holds at
least one record; a section with zero accumulated data rows is
discarded both at a boundary and at end of file. -/
theorem C4_sections_nonempty (g : Grid) (s : Section)
    (hs : s ∈ parse_file_to_sections g) : s.data_rows ≠ [] := by
  simp only [parse_file_to_sections] at hs
  by_cases hg : gridEmpty g = true
  · rw [if_pos hg] at hs
    exact absurd hs (List.not_mem_nil s)
  · rw [if_neg hg] at hs
    rcases mem_flushCurrent hs with h1 | ⟨_, h2⟩
    · refine scan_sections_inv (global_id g) g ⟨[], none, none⟩ ?_ s h1
      intro s2 hs2
      exact absurd hs2 (List.not_mem_nil s2)
    · exact h2

theorem C4_witness : secW ∈ parse_file_to_sections gridW ∧ secW.data_rows ≠ [] :=
  ⟨by decide, C4_sections_nonempty gridW secW (by decide)⟩

/-- C5: the emitted amount always equals the two-place rounding of the
product of the coerced quantity and unit-price cells; two projected
rows agreeing on the quantity and unit-price cells (but possibly
differing in their source amount cell) produce the same amount; and
every record emitted by the scanner originates from `mkRecord`, so the
law covers every emitted record. -/
theorem C5_amount_recomputed :
    (∀ item : ItemData,
      (mkRecord item).amount =
        round2 (mulDec (safe_float (lookupS item "数量"))
          (safe_float (lookupS item "单价")))) ∧
    (∀ item item2 : ItemData,
      lookupS item "数量" = lookupS item2 "数量" →
      lookupS item "单价" = lookupS item2 "单价" →
      (mkRecord item).amount = (mkRecord item2).amount) ∧
    (∀ (g : Grid) (s : Section) (r : StdRecord),
      s ∈ parse_file_to_sections g → r ∈ s.data_rows → FromItem r) := by
  refine ⟨fun item => rfl, ?_, ?_⟩
  · intro item item2 h1 h2
    simp only [mkRecord]
    rw [h1, h2]
  · intro g s r hs hr
    exact parse_FromItem hs hr

theorem C5_witness :
    (mkRecord itemX).amount = (mkRecord itemY).amount ∧
    (mkRecord itemX).amount =
      round2 (mulDec (safe_float (lookupS itemX "数量"))
        (safe_float (lookupS itemX "单价"))) ∧
    FromItem recW :=
  ⟨C5_amount_recomputed.2.1 itemX itemY (by decide) (by decide),
   C5_amount_recomputed.1 itemX,
   C5_amount_recomputed.2.2 gridW secW recW (by decide) (by decide)⟩

/-- C6: over a whole batch run the written rows have pairwise distinct
deduplication keys (so the second and later occurrences of a key are
skipped, across sections and files alike, because one seen set threads
through the entire run); the key ignores the unit price; and the
per-section sequence numbers count only written rows, consecutively
from one. -/
theorem C6_dedup_export :
    (∀ grids : List Grid, ((expBatch grids).map keyOf).Nodup) ∧
    (∀ (ono : String) (r r2 : StdRecord),
      r.name = r2.name → r.spec = r2.spec → r.qty = r2.qty →
      dedupKey ono r = dedupKey ono r2) ∧
    (∀ (ono : String) (rows : List StdRecord) (seen : List DedupKey),
      (expRecs ono rows seen 0).2.2.map OutRow.seqNo =
        List.range' 1 (expRecs ono rows seen 0).2.2.length) := by
  refine ⟨?_, ?_, ?_⟩
  · intro grids
    exact (expFiles_inv grids []).2.2
  · intro ono r r2 h1 h2 h3
    simp only [dedupKey, h1, h2, h3]
  · intro ono rows seen
    exact expRecs_seqNo ono rows seen 0

theorem C6_witness :
    ((expBatch [gridDup]).map keyOf).Nodup ∧
    dedupKey "A" recP = dedupKey "A" recQ :=
  ⟨C6_dedup_export.1 [gridDup],
   C6_dedup_export.2.1 "A" recP recQ rfl rfl rfl⟩

/-- C7: the loader is total; when every CSV-encoding attempt fails and
the final excel attempt raises (outcome `none`), it degrades to the
empty grid, and the scanner maps an empty grid to the empty section
sequence, so a bad input file yields zero sections instead of aborting
the batch. -/
theorem C7_loader_degrades :
    (∀ (isCsv : Bool) (csvResults : List (Option Grid)),
      csvResults.all Option.isNone = true →
      read_excel_smart isCsv csvResults none = [] ∧
      parse_file_to_sections (read_excel_smart isCsv csvResults none) = []) ∧
    (∀ g : Grid, gridEmpty g = true → parse_file_to_sections g = []) := by
  have hempty : ∀ g : Grid, gridEmpty g = true → parse_file_to_sections g = [] := by
    intro g hg
    simp only [parse_file_to_sections]
    rw [if_pos hg]
  refine ⟨?_, hempty⟩
  intro isCsv csvResults hall
  have h1 : read_excel_smart isCsv csvResults none = [] := by
    cases isCsv <;>
      simp [read_excel_smart, findSome?_eq_none_of_all_isNone hall]
  refine ⟨h1, ?_⟩
  rw [h1]
  exact hempty [] rfl

theorem C7_witness :
    read_excel_smart true [none, none, none, none] none = [] ∧
    parse_file_to_sections (read_excel_smart true [none, none, none, none] none) =
      [] :=
  C7_loader_degrades.1 true [none, none, none, none] (by decide)

/-- C8: `safe_float` is total; it returns zero for a missing value, for
empty or whitespace-only text and for text that does not parse as a
number, and otherwise returns the number parsed from the stripped,
comma-free text. -/
theorem C8_safe_float_total :
    safe_float none = decZero ∧
    (∀ s : String, trimStr s = "" → safe_float (some s) = decZero) ∧
    (∀ s : String, parseFloat (stripCommas (trimStr s)) = none →
      safe_float (some s) = decZero) ∧
    (∀ (s : String) (d : Dec), parseFloat (stripCommas (trimStr s)) = some d →
      trimStr s ≠ "" → safe_float (some s) = d) := by
  refine ⟨rfl, ?_, ?_, ?_⟩
  · intro s hs
    simp [safe_float, hs]
  · intro s hp
    by_cases ht : trimStr s = ""
    · simp [safe_float, ht]
    · simp [safe_float, ht, hp]
  · intro s d hp ht
    simp [safe_float, ht, hp]

theorem C8_witness :
    safe_float (some " 1,234.5 ") = ⟨12345, 1⟩ ∧
    safe_float (some " abc ") = decZero :=
  ⟨C8_safe_float_total.2.2.2 " 1,234.5 " ⟨12345, 1⟩ (by decide) (by decide),
   C8_safe_float_total.2.2.1 " abc " (by decide)⟩

/-- C9: the scan is deterministic; two runs over identical grids yield
structurally identical section sequences, since the embedding of
`parse_file_to_sections` is a pure function of the grid. -/
theorem C9_deterministic (g1 g2 : Grid) (h : g1 = g2) :
    parse_file_to_sections g1 = parse_file_to_sections g2 := by rw [h]

theorem C9_witness :
    parse_file_to_sections gridW = parse_file_to_sections gridW :=
  C9_deterministic gridW gridW rfl

/-- C10: the pattern matches case-insensitively but the token keeps its
original casing, and boundaries compare tokens case-sensitively: on
`gridCase` the lower-case reoccurrence of the same order number closes
the first section and opens a second one whose order number differs
from the first only in letter case. -/
theorem C10_case_sensitive_boundary :
    (parse_file_to_sections gridCase).map Section.order_no =
      ["XIDP-1234567890", "xidp-1234567890"] ∧
    lowerStr "XIDP-1234567890" = lowerStr "xidp-1234567890" ∧
    "XIDP-1234567890" ≠ "xidp-1234567890" ∧
    (parse_file_to_sections gridCase).length = 2 := by decide

end OrderMerge

